import Mathlib

/-!
Shallow embedding of the query-chaining and result-aggregation pipeline of
`chebi2gene.py` (functions `convert_to_uniprot_id`, `get_exact_chebi_from_search`,
`get_extended_chebi_from_search`, `get_genes_of_proteins`,
`get_pathways_of_proteins`, `get_organism_of_proteins`, `get_protein_of_chebi`,
`sparql_query`, and the routes `show_chebi` and `generate_csv`).

Modelling conventions:
* Python dictionaries are modelled as association lists `List (String × α)`
  (`dictGet` / `dictSet`); all properties proved are insertion-order based or
  order-insensitive, so the unspecified iteration order of Python 2 dicts is
  immaterial.
* A Python statement that can raise (`KeyError`, `IndexError`, `TypeError`)
  is modelled by an `Option` result, `none` meaning the exception propagates.
* The remote endpoint is a parameter: a function from the de-duplicated
  protein list embedded in the query to the JSON value the transport layer
  produced.  `SparqlJson.empty` is the `{}` object that `sparql_query` returns
  when `json.loads` fails; `SparqlJson.results rows` is a well-formed
  `{"results": {"bindings": rows}}` body.
* `list(set(proteins))` has an unspecified order in Python; it is modelled by
  `List.dedup`, and every theorem about it is order-insensitive (`Nodup`,
  membership / `toFinset`).
-/

namespace Chebi2Gene

/-! ## String helpers (Python `rsplit`, `split`, `strip`) -/

/-- Characters after the last occurrence of `sep`, or `none` when `sep` does
not occur.  Models the `[1]` component of Python `s.rsplit(sep, 1)`, whose
indexing raises `IndexError` when `sep` is absent. -/
def afterLastSep (sep : Char) : List Char → Option (List Char)
  | [] => none
  | c :: rest =>
    match afterLastSep sep rest with
    | some r => some r
    | none => if c = sep then some rest else none

/-- Characters after the first occurrence of `sep`, or `none` when `sep` does
not occur.  This is the spec's wording ("the portion after the segment's
first underscore"); the code instead indexes `split(sep)[1]`. -/
def afterFirstSep (sep : Char) : List Char → Option (List Char)
  | [] => none
  | c :: rest => if c = sep then some rest else afterFirstSep sep rest

/-- Python `s.split(sep)` for a one-character separator: splits at every
occurrence, keeping empty fields, and yields `[""]` on the empty string. -/
def splitChars (sep : Char) : List Char → List (List Char)
  | [] => [[]]
  | c :: rest =>
    if c = sep then [] :: splitChars sep rest
    else
      match splitChars sep rest with
      | [] => [[c]]
      | g :: gs => (c :: g) :: gs

/-- Whitespace set of Python 2 `str.strip()`. -/
def pyIsSpace (c : Char) : Bool :=
  c = ' ' || c = '\t' || c = '\n' || c = '\r' || c = '\x0b' || c = '\x0c'

/-- Python `s.strip()`: drop leading and trailing whitespace. -/
def pyStrip (l : List Char) : List Char :=
  ((l.dropWhile pyIsSpace).reverse.dropWhile pyIsSpace).reverse

/-- Models `s.rsplit(':', 1)[1].strip()` from `convert_to_uniprot_id`. -/
def pyColonId (s : String) : Option String :=
  (afterLastSep ':' s.data).map (fun l => String.mk (pyStrip l))

/-- Models `s.rsplit('/', 1)[1]`, the protein-id extraction used by all three
fan-out aggregators. -/
def pySlashExtract (s : String) : Option String :=
  (afterLastSep '/' s.data).map String.mk

/-- Models `s.rsplit('#', 1)[1]`, the scaffold extraction of
`get_genes_of_proteins`. -/
def pyHashExtract (s : String) : Option String :=
  (afterLastSep '#' s.data).map String.mk

/-- Models `uri.rsplit('/', 1)[1].split('_')[1]`, the short ChEBI id
extraction shared by both search variants (lines 97 and 142). -/
def chebiShortId (uri : String) : Option String :=
  (afterLastSep '/' uri.data).bind
    (fun seg => ((splitChars '_' seg).get? 1).map String.mk)

/-- Modelled from the spec's words, for comparison with `chebiShortId`:
"take the URI's final path segment, then the portion after its first `_`". -/
def specShortId (uri : String) : Option String :=
  (afterLastSep '/' uri.data).bind
    (fun seg => (afterFirstSep '_' seg).map String.mk)

/-! ## Dictionaries as association lists -/

/-- Python `m[k]` / `k in m` combined: `some v` when the key is present. -/
def dictGet {α : Type} : List (String × α) → String → Option α
  | [], _ => none
  | kv :: rest, k => if kv.1 = k then some kv.2 else dictGet rest k

/-- Python `m[k] = v`: replace the value of an existing key in place,
otherwise add the binding at the end. -/
def dictSet {α : Type} : List (String × α) → String → α → List (String × α)
  | [], k, v => [(k, v)]
  | kv :: rest, k, v => if kv.1 = k then (k, v) :: rest else kv :: dictSet rest k v

/-- Keys of an association list, in insertion order. -/
def dictKeys {α : Type} (m : List (String × α)) : List String :=
  m.map Prod.fst

/-! ## SPARQL client -/

/-- The JSON object `sparql_query` hands to its callers: either the empty
object `{}` produced when `json.loads` raises `ValueError`, or a body with a
`results.bindings` row list (rows typed per query). -/
inductive SparqlJson (ρ : Type) : Type
  | empty : SparqlJson ρ
  | results (rows : List ρ) : SparqlJson ρ
deriving DecidableEq

/-- Parse step of `sparql_query` (lines 356–360): the transport layer yields a
parse outcome; on parse failure (`none`) the function returns the empty object
`{}` instead of raising. -/
def sparql_query {ρ : Type} (parsed : Option (SparqlJson ρ)) : SparqlJson ρ :=
  match parsed with
  | some j => j
  | none => SparqlJson.empty

/-- Row list of a response, empty for the `{}` object. -/
def rowsOf {ρ : Type} : SparqlJson ρ → List ρ
  | SparqlJson.empty => []
  | SparqlJson.results rows => rows

/-! ## Row types (one per query shape) -/

/-- Binding row of the pathway query: variables `prot`, `desc`. -/
structure PathRow where
  prot : String
  desc : String
deriving DecidableEq

/-- Binding row of the organism query: variables `prot`, `name`. -/
structure OrgRow where
  prot : String
  orgname : String
deriving DecidableEq

/-- Binding row of the gene query: variables `prot`, `name`, `sca`, `start`,
`stop`, `desc`. -/
structure GeneRow where
  prot : String
  gname : String
  sca : String
  gstart : String
  gstop : String
  desc : String
deriving DecidableEq

/-- Gene record built per row by `get_genes_of_proteins` (scaffold already
stripped of its URI-fragment prefix). -/
structure GeneRec where
  gname : String
  sca : String
  gstart : String
  gstop : String
  desc : String
deriving DecidableEq

/-- Binding row of the compound query of `get_protein_of_chebi`: variables
`react`, `xref`. -/
structure ChebiRow where
  react : String
  xref : String
deriving DecidableEq

/-- Binding row of both search queries: variables `id`, `name`, `syn`. -/
structure SearchRow where
  sid : String
  sname : String
  syn : String
deriving DecidableEq

/-- Value stored per ChEBI id by the search merge. -/
structure MolEntry where
  mname : List String
  syn : List String
deriving DecidableEq

/-! ## convert_to_uniprot_id -/

/-- Inner loop of `convert_to_uniprot_id`: extract the short id of every
protein reference; an entry without a colon raises (`none`). -/
def convertProteins : List String → Option (List String)
  | [] => some []
  | p :: rest =>
    match pyColonId p with
    | none => none
    | some pid =>
      match convertProteins rest with
      | none => none
      | some rest' => some (pid :: rest')

/-- Embedding of `convert_to_uniprot_id` (lines 47–62): replaces every
reaction's value list by the extracted short protein ids and returns the
updated mapping (the Python function mutates and returns its argument). -/
def convert_to_uniprot_id : List (String × List String) → Option (List (String × List String))
  | [] => some []
  | (k, ps) :: rest =>
    match convertProteins ps with
    | none => none
    | some ps' =>
      match convert_to_uniprot_id rest with
      | none => none
      | some rest' => some ((k, ps') :: rest')

/-! ## Fan-out aggregators -/

/-- Models `list(set(proteins))` (lines 168, 221, 267): the de-duplicated
protein list embedded into one disjunctive IN-filter query. -/
def dedupProteins (proteins : List String) : List String :=
  proteins.dedup

/-- Per-row update of `get_pathways_of_proteins` (lines 242–248).  Note the
source's condition: `if prot_id in pathways and path not in pathways[prot_id]`
appends, and every other case — including a duplicate description — executes
`pathways[prot_id] = [path]`. -/
def pathStep (m : List (String × List String)) (row : PathRow) :
    Option (List (String × List String)) :=
  match pySlashExtract row.prot with
  | none => none
  | some p =>
    some (dictSet m p
      (match dictGet m p with
       | some l => if row.desc ∈ l then [row.desc] else l ++ [row.desc]
       | none => [row.desc]))

/-- Per-row update of `get_organism_of_proteins` (lines 285–291), same shape
as `pathStep` with the organism name in place of the description. -/
def orgStep (m : List (String × List String)) (row : OrgRow) :
    Option (List (String × List String)) :=
  match pySlashExtract row.prot with
  | none => none
  | some p =>
    some (dictSet m p
      (match dictGet m p with
       | some l => if row.orgname ∈ l then [row.orgname] else l ++ [row.orgname]
       | none => [row.orgname]))

/-- Per-row update of `get_genes_of_proteins` (lines 191–201): build a gene
record from the five fields, strip the scaffold fragment, and append. -/
def geneStep (m : List (String × List GeneRec)) (row : GeneRow) :
    Option (List (String × List GeneRec)) :=
  match pySlashExtract row.prot with
  | none => none
  | some p =>
    match pyHashExtract row.sca with
    | none => none
    | some sca =>
      some (dictSet m p
        (match dictGet m p with
         | some l => l ++ [⟨row.gname, sca, row.gstart, row.gstop, row.desc⟩]
         | none => [⟨row.gname, sca, row.gstart, row.gstop, row.desc⟩]))

/-- Process the binding rows of one response in order, propagating a raise. -/
def stepRows {ρ α : Type} (step : List (String × α) → ρ → Option (List (String × α))) :
    List (String × α) → List ρ → Option (List (String × α))
  | m, [] => some m
  | m, r :: rest =>
    match step m r with
    | none => none
    | some m' => stepRows step m' rest

/-- Shared loop of the three fan-out aggregators: one query per reaction over
the de-duplicated protein set; indexing `data_js['results']` on the empty `{}`
object raises `KeyError` (`none`). -/
def runFanout {ρ α : Type} (step : List (String × α) → ρ → Option (List (String × α)))
    (e : List String → SparqlJson ρ) :
    List (String × List String) → List (String × α) → Option (List (String × α))
  | [], m => some m
  | kv :: rest, m =>
    match e (dedupProteins kv.2) with
    | SparqlJson.empty => none
    | SparqlJson.results rows =>
      match stepRows step m rows with
      | none => none
      | some m' => runFanout step e rest m'

/-- Embedding of `get_pathways_of_proteins` (lines 206–249). -/
def get_pathways_of_proteins (e : List String → SparqlJson PathRow)
    (data : List (String × List String)) : Option (List (String × List String)) :=
  runFanout pathStep e data []

/-- Embedding of `get_organism_of_proteins` (lines 252–292). -/
def get_organism_of_proteins (e : List String → SparqlJson OrgRow)
    (data : List (String × List String)) : Option (List (String × List String)) :=
  runFanout orgStep e data []

/-- Embedding of `get_genes_of_proteins` (lines 153–203). -/
def get_genes_of_proteins (e : List String → SparqlJson GeneRow)
    (data : List (String × List String)) : Option (List (String × List GeneRec)) :=
  runFanout geneStep e data []

/-! ## Compound resolver -/

/-- Per-row update of `get_protein_of_chebi` (lines 323–328): the reaction key
is `entry['react']['value'].split('#')[1]`, the raw xref string is appended. -/
def chebiStep (m : List (String × List String)) (row : ChebiRow) :
    Option (List (String × List String)) :=
  match ((splitChars '#' row.react.data).get? 1).map String.mk with
  | none => none
  | some key =>
    some (dictSet m key
      (match dictGet m key with
       | some l => l ++ [row.xref]
       | none => [row.xref]))

/-- Embedding of `get_protein_of_chebi` (lines 295–329): on the empty `{}`
response the guard `if not data: return` yields Python `None` (`some none`);
otherwise rows are grouped by reaction id.  The outer `Option` is a raise. -/
def get_protein_of_chebi (resp : SparqlJson ChebiRow) :
    Option (Option (List (String × List String))) :=
  match resp with
  | SparqlJson.empty => some none
  | SparqlJson.results rows => (stepRows chebiStep [] rows).map some

/-! ## Compound search -/

/-- Per-row merge of both search variants (lines 96–104 and 141–149): a new id
inserts a fresh entry, a re-seen id appends the synonym to the existing
entry's `syn` list (the `name` list is left untouched). -/
def moleculeStep (m : List (String × MolEntry)) (row : SearchRow) :
    Option (List (String × MolEntry)) :=
  match chebiShortId row.sid with
  | none => none
  | some cid =>
    some (dictSet m cid
      (match dictGet m cid with
       | some e => ⟨e.mname, e.syn ++ [row.syn]⟩
       | none => ⟨[row.sname], [row.syn]⟩))

/-- Embedding of `get_exact_chebi_from_search` (lines 65–105): `some none` is
the early `return` on an empty client result. -/
def get_exact_chebi_from_search (resp : SparqlJson SearchRow) :
    Option (Option (List (String × MolEntry))) :=
  match resp with
  | SparqlJson.empty => some none
  | SparqlJson.results rows => (stepRows moleculeStep [] rows).map some

/-- Embedding of `get_extended_chebi_from_search` (lines 108–150): identical
result processing; the two variants differ only in the query filter sent to
the endpoint. -/
def get_extended_chebi_from_search (resp : SparqlJson SearchRow) :
    Option (Option (List (String × MolEntry))) :=
  match resp with
  | SparqlJson.empty => some none
  | SparqlJson.results rows => (stepRows moleculeStep [] rows).map some

/-! ## Orchestrator (`show_chebi`) -/

/-- Data handed to the output template by `show_chebi`: in the no-results
branch (lines 443–445) the template receives `proteins=[]` and `None` for the
three mappings. -/
structure CompoundReport where
  proteins : List (String × List String)
  pathways : Option (List (String × List String))
  genes : Option (List (String × List GeneRec))
  organisms : Option (List (String × List String))
deriving DecidableEq

/-- The explicit no-results terminal state of `show_chebi` (lines 444–445):
an empty protein list and absent pathway/gene/organism mappings. -/
def noResultsReport : CompoundReport :=
  ⟨[], none, none, none⟩

/-- Embedding of the route `show_chebi` (lines 433–452), parameterized by the
compound-query response and the three fan-out endpoints. -/
def show_chebi (chebiResp : SparqlJson ChebiRow)
    (pe : List String → SparqlJson PathRow)
    (ge : List String → SparqlJson GeneRow)
    (oe : List String → SparqlJson OrgRow) : Option CompoundReport :=
  match get_protein_of_chebi chebiResp with
  | none => none
  | some none => some noResultsReport
  | some (some proteins) =>
    if proteins = [] then some noResultsReport
    else
      match convert_to_uniprot_id proteins with
      | none => none
      | some proteins2 =>
        match get_pathways_of_proteins pe proteins2,
              get_genes_of_proteins ge proteins2,
              get_organism_of_proteins oe proteins2 with
        | some pw, some gn, some og => some ⟨proteins2, some pw, some gn, some og⟩
        | _, _, _ => none

/-! ## CSV export (`generate_csv`) -/

/-- Fixed column-header line of the CSV export (lines 469–470). -/
def csv_header : String :=
  "Chebi ID, Chebi URL, Rhea ID, Rhea URL, UniProt, Organism, Type, Name, Scaffold, Start, Stop, Description\n"

/-- ChEBI search URL interpolated into every data row (lines 471–472). -/
def chebiUrl (chebi_id : String) : String :=
  "http://www.ebi.ac.uk/chebi/searchId.do?chebiId=" ++ chebi_id

/-- Rhea reaction URL interpolated into every data row (lines 474–475). -/
def reactUrl (reaction : String) : String :=
  "http://www.ebi.ac.uk/rhea/reaction.xhtml?id=RHEA:" ++ reaction

/-- Data rows contributed by one protein of one reaction (lines 477–490):
pathway rows then gene rows; the unguarded `organisms[protein]` lookup inside
each loop raises `KeyError` (`none`) when the protein has no organism entry
and the corresponding list is non-empty. -/
def csvProteinRows (cid reaction protein : String)
    (pathways : List (String × List String)) (genes : List (String × List GeneRec))
    (organisms : List (String × List String)) : Option String :=
  let pathPart : Option String :=
    match dictGet pathways protein with
    | none => some ""
    | some pl =>
      if pl = [] then some ""
      else
        match dictGet organisms protein with
        | none => none
        | some ol =>
          some (String.join (pl.map (fun pathway =>
            cid ++ "," ++ chebiUrl cid ++ "," ++ reaction ++ "," ++ reactUrl reaction ++
            "," ++ protein ++ "," ++ String.intercalate " - " ol ++ ",Pathway," ++
            pathway ++ "\n")))
  let genePart : Option String :=
    match dictGet genes protein with
    | none => some ""
    | some gl =>
      if gl = [] then some ""
      else
        match dictGet organisms protein with
        | none => none
        | some ol =>
          some (String.join (gl.map (fun g =>
            cid ++ "," ++ chebiUrl cid ++ "," ++ reaction ++ "," ++ reactUrl reaction ++
            "," ++ protein ++ "," ++ String.intercalate " - " ol ++ ",Gene," ++
            g.gname ++ "," ++ g.sca ++ "," ++ g.gstart ++ "," ++ g.gstop ++ "," ++
            g.desc ++ "\n")))
  match pathPart, genePart with
  | some a, some b => some (a ++ b)
  | _, _ => none

/-- Rows of one reaction: iterate its protein list in order. -/
def csvReactionRows (cid reaction : String) (ps : List String)
    (pathways : List (String × List String)) (genes : List (String × List GeneRec))
    (organisms : List (String × List String)) : Option String :=
  match ps with
  | [] => some ""
  | p :: rest =>
    match csvProteinRows cid reaction p pathways genes organisms with
    | none => none
    | some s =>
      match csvReactionRows cid reaction rest pathways genes organisms with
      | none => none
      | some s' => some (s ++ s')

/-- Concatenation of the data rows over all reactions (lines 473–490). -/
def csvRows (cid : String) (proteins : List (String × List String))
    (pathways : List (String × List String)) (genes : List (String × List GeneRec))
    (organisms : List (String × List String)) : Option String :=
  match proteins with
  | [] => some ""
  | kv :: rest =>
    match csvReactionRows cid kv.1 kv.2 pathways genes organisms with
    | none => none
    | some s =>
      match csvRows cid rest pathways genes organisms with
      | none => none
      | some s' => some (s ++ s')

/-- Embedding of the route `generate_csv` (lines 455–491).  Unlike
`show_chebi` it does not guard the resolver result: when the resolver returns
Python `None`, `convert_to_uniprot_id(None)` raises `TypeError` (`none`). -/
def generate_csv (chebi_id : String) (chebiResp : SparqlJson ChebiRow)
    (pe : List String → SparqlJson PathRow)
    (ge : List String → SparqlJson GeneRow)
    (oe : List String → SparqlJson OrgRow) : Option String :=
  match get_protein_of_chebi chebiResp with
  | none => none
  | some none => none
  | some (some proteins) =>
    match convert_to_uniprot_id proteins with
    | none => none
    | some proteins2 =>
      match get_pathways_of_proteins pe proteins2,
            get_genes_of_proteins ge proteins2,
            get_organism_of_proteins oe proteins2 with
      | some pw, some gn, some og =>
        match csvRows chebi_id proteins2 pw gn og with
        | none => none
        | some rows => some (csv_header ++ rows)
      | _, _, _ => none

/-! ## Lemmas about the string helpers -/

theorem afterLastSep_eq_none {sep : Char} {l : List Char}
    (h : afterLastSep sep l = none) : sep ∉ l := by
  induction l with
  | nil => simp
  | cons c rest ih =>
    intro hmem
    simp only [afterLastSep] at h
    cases hr : afterLastSep sep rest with
    | some r => rw [hr] at h; simp at h
    | none =>
      rw [hr] at h
      by_cases hc : c = sep
      · rw [if_pos hc] at h; simp at h
      · rcases List.mem_cons.mp hmem with h1 | h2
        · exact hc h1.symm
        · exact ih hr h2

theorem afterLastSep_not_mem {sep : Char} {l r : List Char}
    (h : afterLastSep sep l = some r) : sep ∉ r := by
  induction l generalizing r with
  | nil => simp [afterLastSep] at h
  | cons c rest ih =>
    simp only [afterLastSep] at h
    cases hr : afterLastSep sep rest with
    | some r' =>
      rw [hr] at h; simp only [Option.some.injEq] at h
      exact h ▸ ih hr
    | none =>
      rw [hr] at h
      by_cases hc : c = sep
      · rw [if_pos hc] at h; simp only [Option.some.injEq] at h
        exact h ▸ afterLastSep_eq_none hr
      · rw [if_neg hc] at h; simp at h

theorem afterLastSep_sep_mem {sep : Char} {l r : List Char}
    (h : afterLastSep sep l = some r) : sep ∈ l := by
  induction l generalizing r with
  | nil => simp [afterLastSep] at h
  | cons c rest ih =>
    simp only [afterLastSep] at h
    cases hr : afterLastSep sep rest with
    | some r' => exact List.mem_cons_of_mem _ (ih hr)
    | none =>
      rw [hr] at h
      by_cases hc : c = sep
      · rw [hc]; exact List.mem_cons_self _ _
      · rw [if_neg hc] at h; simp at h

theorem mem_of_mem_pyStrip {x : Char} {l : List Char} (h : x ∈ pyStrip l) : x ∈ l := by
  unfold pyStrip at h
  rw [List.mem_reverse] at h
  have h2 : x ∈ (l.dropWhile pyIsSpace).reverse := (List.dropWhile_sublist _).subset h
  rw [List.mem_reverse] at h2
  exact (List.dropWhile_sublist _).subset h2

theorem pyColonId_no_colon {s t : String} (h : pyColonId s = some t) :
    ':' ∉ t.data := by
  unfold pyColonId at h
  cases hr : afterLastSep ':' s.data with
  | none => rw [hr] at h; simp at h
  | some r =>
    rw [hr] at h; simp only [Option.map_some', Option.some.injEq] at h
    intro hmem
    rw [← h] at hmem
    exact afterLastSep_not_mem hr (mem_of_mem_pyStrip hmem)

theorem pyColonId_has_colon {s t : String} (h : pyColonId s = some t) :
    ':' ∈ s.data := by
  unfold pyColonId at h
  cases hr : afterLastSep ':' s.data with
  | none => rw [hr] at h; simp at h
  | some r => exact afterLastSep_sep_mem hr

theorem splitChars_no_sep {sep : Char} {b : List Char} (h : sep ∉ b) :
    splitChars sep b = [b] := by
  induction b with
  | nil => rfl
  | cons c rest ih =>
    have hc : ¬ c = sep := fun hcc => h (hcc ▸ List.mem_cons_self _ _)
    have hrest : sep ∉ rest := fun hm => h (List.mem_cons_of_mem _ hm)
    simp only [splitChars, if_neg hc, ih hrest]

theorem splitChars_append_sep {sep : Char} {a : List Char} (b : List Char)
    (h : sep ∉ a) : splitChars sep (a ++ sep :: b) = a :: splitChars sep b := by
  induction a with
  | nil => simp [splitChars]
  | cons c a' ih =>
    have hc : ¬ c = sep := fun hcc => h (hcc ▸ List.mem_cons_self _ _)
    have ha' : sep ∉ a' := fun hm => h (List.mem_cons_of_mem _ hm)
    simp only [List.cons_append, splitChars, if_neg hc, List.append_eq, ih ha']

theorem afterFirstSep_append {sep : Char} {a : List Char} (b : List Char)
    (h : sep ∉ a) : afterFirstSep sep (a ++ sep :: b) = some b := by
  induction a with
  | nil => simp [afterFirstSep]
  | cons c a' ih =>
    have hc : ¬ c = sep := fun hcc => h (hcc ▸ List.mem_cons_self _ _)
    have ha' : sep ∉ a' := fun hm => h (List.mem_cons_of_mem _ hm)
    simp only [List.cons_append, afterFirstSep, if_neg hc, List.append_eq, ih ha']

/-! ## Lemmas about the dictionary model -/

theorem dictGet_dictSet_self {α : Type} (m : List (String × α)) (k : String) (v : α) :
    dictGet (dictSet m k v) k = some v := by
  induction m with
  | nil => simp [dictSet, dictGet]
  | cons kv rest ih =>
    by_cases h : kv.1 = k
    · simp [dictSet, h, dictGet]
    · simp [dictSet, h, dictGet, ih]

theorem dictGet_dictSet_ne {α : Type} (m : List (String × α)) (k k' : String) (v : α)
    (h : k' ≠ k) : dictGet (dictSet m k v) k' = dictGet m k' := by
  induction m with
  | nil =>
    simp only [dictSet, dictGet]
    rw [if_neg (fun hc : k = k' => h hc.symm)]
  | cons kv rest ih =>
    by_cases hk : kv.1 = k
    · simp only [dictSet, if_pos hk, dictGet]
      rw [if_neg (fun hc : k = k' => h hc.symm),
        if_neg (fun hc : kv.1 = k' => h (hk.symm.trans hc).symm)]
    · simp only [dictSet, if_neg hk, dictGet, ih]

theorem dictGet_eq_none_iff {α : Type} (m : List (String × α)) (k : String) :
    dictGet m k = none ↔ k ∉ dictKeys m := by
  induction m with
  | nil => simp [dictGet, dictKeys]
  | cons kv rest ih =>
    by_cases h : kv.1 = k
    · simp only [dictGet, if_pos h, dictKeys, List.map_cons, List.mem_cons]
      constructor
      · intro hc; exact absurd hc (by simp)
      · intro hc; exact absurd (Or.inl h.symm) hc
    · simp only [dictGet, if_neg h, dictKeys, List.map_cons, List.mem_cons]
      rw [ih]
      constructor
      · intro hn hc
        rcases hc with hc | hc
        · exact h hc.symm
        · exact hn hc
      · intro hn hc
        exact hn (Or.inr hc)

theorem mem_dictKeys_dictSet {α : Type} {m : List (String × α)} {k k' : String} {v : α}
    (h : k' ∈ dictKeys (dictSet m k v)) : k' ∈ dictKeys m ∨ k' = k := by
  induction m with
  | nil => simp [dictSet, dictKeys] at h; exact Or.inr h
  | cons kv rest ih =>
    by_cases hk : kv.1 = k
    · rw [dictSet, if_pos hk] at h
      simp only [dictKeys, List.map_cons, List.mem_cons] at h ⊢
      rcases h with h | h
      · exact Or.inr h
      · exact Or.inl (Or.inr h)
    · rw [dictSet, if_neg hk] at h
      simp only [dictKeys, List.map_cons, List.mem_cons] at h ⊢
      rcases h with h | h
      · exact Or.inl (Or.inl h)
      · rcases ih h with h' | h'
        · exact Or.inl (Or.inr h')
        · exact Or.inr h'

theorem dictKeys_dictSet_of_found {α : Type} {m : List (String × α)} {k : String}
    (v : α) (h : dictGet m k ≠ none) : dictKeys (dictSet m k v) = dictKeys m := by
  induction m with
  | nil => simp [dictGet] at h
  | cons kv rest ih =>
    by_cases hk : kv.1 = k
    · simp [dictSet, if_pos hk, dictKeys, hk]
    · rw [dictGet, if_neg hk] at h
      have h2 := ih h
      simp only [dictKeys] at h2 ⊢
      simp [dictSet, if_neg hk, h2]

theorem dictKeys_dictSet_of_not_found {α : Type} {m : List (String × α)} {k : String}
    (v : α) (h : dictGet m k = none) : dictKeys (dictSet m k v) = dictKeys m ++ [k] := by
  induction m with
  | nil => simp [dictSet, dictKeys]
  | cons kv rest ih =>
    rw [dictGet] at h
    by_cases hk : kv.1 = k
    · rw [if_pos hk] at h; simp at h
    · rw [if_neg hk] at h
      have h2 := ih h
      simp only [dictKeys] at h2 ⊢
      simp [dictSet, if_neg hk, h2]

theorem nodup_dictKeys_dictSet {α : Type} {m : List (String × α)} (k : String) (v : α)
    (h : (dictKeys m).Nodup) : (dictKeys (dictSet m k v)).Nodup := by
  cases hg : dictGet m k with
  | some v' => rw [dictKeys_dictSet_of_found v (by rw [hg]; simp)]; exact h
  | none =>
    rw [dictKeys_dictSet_of_not_found v hg]
    rw [List.nodup_append]
    refine ⟨h, List.nodup_singleton _, ?_⟩
    intro x hx hk'
    rw [List.mem_singleton] at hk'
    exact (dictGet_eq_none_iff m k).mp hg (hk' ▸ hx)

theorem dictGet_of_mem_nodup {α : Type} {m : List (String × α)} {kv : String × α}
    (hnd : (dictKeys m).Nodup) (h : kv ∈ m) : dictGet m kv.1 = some kv.2 := by
  induction m with
  | nil => simp at h
  | cons kv' rest ih =>
    rcases List.mem_cons.mp h with h1 | h2
    · rw [h1, dictGet, if_pos rfl]
    · have hk : kv'.1 ≠ kv.1 := by
        intro hc
        have : kv.1 ∈ dictKeys rest := List.mem_map_of_mem Prod.fst h2
        rw [dictKeys, List.map_cons, List.nodup_cons] at hnd
        exact hnd.1 (hc ▸ this)
      rw [dictGet, if_neg hk]
      exact ih (by rw [dictKeys, List.map_cons, List.nodup_cons] at hnd; exact hnd.2) h2

/-! ## Key provenance of the fan-out aggregators -/

/-- Protein ids extracted from all rows the endpoint returned across the
per-reaction batch queries of a fan-out run, in query order. -/
def returnedProts {ρ : Type} (protOf : ρ → Option String)
    (e : List String → SparqlJson ρ) : List (String × List String) → List String
  | [] => []
  | kv :: rest =>
    (rowsOf (e (dedupProteins kv.2))).filterMap protOf ++ returnedProts protOf e rest

theorem stepRows_keys {ρ α : Type} {protOf : ρ → Option String}
    {step : List (String × α) → ρ → Option (List (String × α))}
    (Hstep : ∀ m r m', step m r = some m' →
      ∀ k, k ∈ dictKeys m' → k ∈ dictKeys m ∨ protOf r = some k) :
    ∀ (rows : List ρ) (m₀ m : List (String × α)), stepRows step m₀ rows = some m →
      ∀ k, k ∈ dictKeys m → k ∈ dictKeys m₀ ∨ k ∈ rows.filterMap protOf := by
  intro rows
  induction rows with
  | nil =>
    intro m₀ m h k hk
    simp only [stepRows, Option.some.injEq] at h
    exact Or.inl (h ▸ hk)
  | cons r rest ih =>
    intro m₀ m h k hk
    simp only [stepRows] at h
    cases hs : step m₀ r with
    | none => rw [hs] at h; simp at h
    | some m' =>
      rw [hs] at h
      rcases ih m' m h k hk with h1 | h1
      · rcases Hstep m₀ r m' hs k h1 with h2 | h2
        · exact Or.inl h2
        · refine Or.inr ?_
          rw [List.filterMap_cons, h2]
          exact List.mem_cons_self _ _
      · refine Or.inr ?_
        rw [List.filterMap_cons]
        cases protOf r with
        | none => exact h1
        | some b => exact List.mem_cons_of_mem _ h1

theorem runFanout_keys {ρ α : Type} {protOf : ρ → Option String}
    {step : List (String × α) → ρ → Option (List (String × α))}
    (Hstep : ∀ m r m', step m r = some m' →
      ∀ k, k ∈ dictKeys m' → k ∈ dictKeys m ∨ protOf r = some k) :
    ∀ (data : List (String × List String)) (e : List String → SparqlJson ρ)
      (m₀ m : List (String × α)), runFanout step e data m₀ = some m →
      ∀ k, k ∈ dictKeys m → k ∈ dictKeys m₀ ∨ k ∈ returnedProts protOf e data := by
  intro data e
  induction data with
  | nil =>
    intro m₀ m h k hk
    simp only [runFanout, Option.some.injEq] at h
    exact Or.inl (h ▸ hk)
  | cons kv rest ih =>
    intro m₀ m h k hk
    simp only [runFanout] at h
    cases he : e (dedupProteins kv.2) with
    | empty => rw [he] at h; simp at h
    | results rows =>
      rw [he] at h
      have h2 : (match stepRows step m₀ rows with
        | none => none
        | some m' => runFanout step e rest m') = some m := h
      cases hs : stepRows step m₀ rows with
      | none => rw [hs] at h2; simp at h2
      | some m' =>
        rw [hs] at h2
        rcases ih m' m h2 k hk with h1 | h1
        · rcases stepRows_keys Hstep rows m₀ m' hs k h1 with h2 | h2
          · exact Or.inl h2
          · refine Or.inr ?_
            rw [returnedProts, he]
            exact List.mem_append_left _ h2
        · refine Or.inr ?_
          rw [returnedProts]
          exact List.mem_append_right _ h1

theorem pathStep_keys : ∀ (m : List (String × List String)) (r : PathRow) m',
    pathStep m r = some m' → ∀ k, k ∈ dictKeys m' →
      k ∈ dictKeys m ∨ pySlashExtract r.prot = some k := by
  intro m r m' h k hk
  unfold pathStep at h
  cases hp : pySlashExtract r.prot with
  | none => rw [hp] at h; simp at h
  | some p =>
    rw [hp] at h
    simp only [Option.some.injEq] at h
    subst h
    rcases mem_dictKeys_dictSet hk with h1 | h1
    · exact Or.inl h1
    · exact Or.inr (by rw [h1])

theorem orgStep_keys : ∀ (m : List (String × List String)) (r : OrgRow) m',
    orgStep m r = some m' → ∀ k, k ∈ dictKeys m' →
      k ∈ dictKeys m ∨ pySlashExtract r.prot = some k := by
  intro m r m' h k hk
  unfold orgStep at h
  cases hp : pySlashExtract r.prot with
  | none => rw [hp] at h; simp at h
  | some p =>
    rw [hp] at h
    simp only [Option.some.injEq] at h
    subst h
    rcases mem_dictKeys_dictSet hk with h1 | h1
    · exact Or.inl h1
    · exact Or.inr (by rw [h1])

theorem geneStep_keys : ∀ (m : List (String × List GeneRec)) (r : GeneRow) m',
    geneStep m r = some m' → ∀ k, k ∈ dictKeys m' →
      k ∈ dictKeys m ∨ pySlashExtract r.prot = some k := by
  intro m r m' h k hk
  unfold geneStep at h
  cases hp : pySlashExtract r.prot with
  | none => rw [hp] at h; simp at h
  | some p =>
    rw [hp] at h
    cases hs : pyHashExtract r.sca with
    | none => rw [hs] at h; simp at h
    | some sca =>
      rw [hs] at h
      simp only [Option.some.injEq] at h
      subst h
      rcases mem_dictKeys_dictSet hk with h1 | h1
      · exact Or.inl h1
      · exact Or.inr (by rw [h1])

/-! ## Invariant of the search merge -/

/-- Synonym values carried by the rows whose extracted id is `cid`, in row
order. -/
def synsFor (cid : String) (rows : List SearchRow) : List String :=
  rows.filterMap (fun r => if chebiShortId r.sid = some cid then some r.syn else none)

/-- Invariant of the accumulator of the search merge after processing `rows`:
one entry per id, the entry's `syn` list is exactly the id's synonym values in
row order, and ids without an entry have no processed row. -/
def MolInv (m : List (String × MolEntry)) (rows : List SearchRow) : Prop :=
  (dictKeys m).Nodup ∧
  (∀ cid e, dictGet m cid = some e → e.syn = synsFor cid rows) ∧
  (∀ cid, dictGet m cid = none → synsFor cid rows = [])

theorem synsFor_append (cid : String) (rows : List SearchRow) (r : SearchRow) :
    synsFor cid (rows ++ [r]) =
      synsFor cid rows ++ (if chebiShortId r.sid = some cid then [r.syn] else []) := by
  unfold synsFor
  rw [List.filterMap_append]
  congr 1
  by_cases h : chebiShortId r.sid = some cid
  · simp [List.filterMap, h]
  · simp [List.filterMap, h]

theorem moleculeStep_inv {m m' : List (String × MolEntry)} {rows : List SearchRow}
    {r : SearchRow} (inv : MolInv m rows) (h : moleculeStep m r = some m') :
    MolInv m' (rows ++ [r]) := by
  unfold moleculeStep at h
  cases hc : chebiShortId r.sid with
  | none => rw [hc] at h; simp at h
  | some cid =>
    rw [hc] at h
    simp only [Option.some.injEq] at h
    subst h
    obtain ⟨hnd, hsome, hnone⟩ := inv
    refine ⟨nodup_dictKeys_dictSet _ _ hnd, ?_, ?_⟩
    · intro c e' hg'
      by_cases hcc : c = cid
      · subst hcc
        rw [dictGet_dictSet_self] at hg'
        simp only [Option.some.injEq] at hg'
        rw [synsFor_append, hc, if_pos rfl]
        cases hg : dictGet m c with
        | some e =>
          rw [hg] at hg'
          rw [← hg', ← hsome c e hg]
        | none =>
          rw [hg] at hg'
          rw [← hg', hnone c hg]
          rfl
      · rw [dictGet_dictSet_ne m cid c _ hcc] at hg'
        rw [synsFor_append, hc, if_neg (fun hx : some cid = some c =>
          hcc (Option.some.injEq cid c ▸ hx).symm)]
        rw [List.append_nil]
        exact hsome c e' hg'
    · intro c hg'
      by_cases hcc : c = cid
      · subst hcc
        rw [dictGet_dictSet_self] at hg'
        simp at hg'
      · rw [dictGet_dictSet_ne m cid c _ hcc] at hg'
        rw [synsFor_append, hc, if_neg (fun hx : some cid = some c =>
          hcc (Option.some.injEq cid c ▸ hx).symm)]
        rw [List.append_nil]
        exact hnone c hg'

theorem stepRows_molInv : ∀ (rows : List SearchRow) (m₀ m : List (String × MolEntry))
    (processed : List SearchRow), MolInv m₀ processed →
    stepRows moleculeStep m₀ rows = some m → MolInv m (processed ++ rows) := by
  intro rows
  induction rows with
  | nil =>
    intro m₀ m processed inv h
    simp only [stepRows, Option.some.injEq] at h
    rw [List.append_nil]
    exact h ▸ inv
  | cons r rest ih =>
    intro m₀ m processed inv h
    simp only [stepRows] at h
    cases hs : moleculeStep m₀ r with
    | none => rw [hs] at h; simp at h
    | some m₁ =>
      rw [hs] at h
      have inv1 := moleculeStep_inv inv hs
      have := ih m₁ m (processed ++ [r]) inv1 h
      rwa [List.append_assoc, List.singleton_append] at this

theorem molInv_nil : MolInv [] [] := by
  refine ⟨List.nodup_nil, ?_, ?_⟩
  · intro cid e h; simp [dictGet] at h
  · intro cid h; rfl

/-! ## Lemmas about convert_to_uniprot_id -/

theorem convertProteins_no_colon : ∀ {ps out : List String},
    convertProteins ps = some out → ∀ s, s ∈ out → ':' ∉ s.data := by
  intro ps
  induction ps with
  | nil =>
    intro out h s hs
    simp only [convertProteins, Option.some.injEq] at h
    rw [← h] at hs
    simp at hs
  | cons p rest ih =>
    intro out h s hs
    simp only [convertProteins] at h
    cases hc : pyColonId p with
    | none => rw [hc] at h; simp at h
    | some pid =>
      rw [hc] at h
      cases hr : convertProteins rest with
      | none => rw [hr] at h; simp at h
      | some rest' =>
        rw [hr] at h
        simp only [Option.some.injEq] at h
        rw [← h] at hs
        rcases List.mem_cons.mp hs with h1 | h1
        · exact h1 ▸ pyColonId_no_colon hc
        · exact ih hr s h1

theorem convertProteins_has_colon : ∀ {ps out : List String},
    convertProteins ps = some out → ∀ p, p ∈ ps → ':' ∈ p.data := by
  intro ps
  induction ps with
  | nil => intro out h p hp; simp at hp
  | cons p rest ih =>
    intro out h p' hp'
    simp only [convertProteins] at h
    cases hc : pyColonId p with
    | none => rw [hc] at h; simp at h
    | some pid =>
      rw [hc] at h
      cases hr : convertProteins rest with
      | none => rw [hr] at h; simp at h
      | some rest' =>
        rcases List.mem_cons.mp hp' with h1 | h1
        · exact h1 ▸ pyColonId_has_colon hc
        · exact ih hr p' h1

theorem convert_keys : ∀ {data out : List (String × List String)},
    convert_to_uniprot_id data = some out → dictKeys out = dictKeys data := by
  intro data
  induction data with
  | nil =>
    intro out h
    simp only [convert_to_uniprot_id, Option.some.injEq] at h
    rw [← h]
  | cons kv rest ih =>
    intro out h
    obtain ⟨k, ps⟩ := kv
    simp only [convert_to_uniprot_id] at h
    cases hc : convertProteins ps with
    | none => rw [hc] at h; simp at h
    | some ps' =>
      rw [hc] at h
      cases hr : convert_to_uniprot_id rest with
      | none => rw [hr] at h; simp at h
      | some rest' =>
        rw [hr] at h
        simp only [Option.some.injEq] at h
        rw [← h]
        simp only [dictKeys, List.map_cons]
        rw [show List.map Prod.fst rest' = List.map Prod.fst rest from ih hr]

theorem convert_out_entries : ∀ {data out : List (String × List String)},
    convert_to_uniprot_id data = some out →
    ∀ kv, kv ∈ out → ∃ ps, convertProteins ps = some kv.2 := by
  intro data
  induction data with
  | nil =>
    intro out h kv hkv
    simp only [convert_to_uniprot_id, Option.some.injEq] at h
    rw [← h] at hkv
    simp at hkv
  | cons kv0 rest ih =>
    intro out h kv hkv
    obtain ⟨k, ps⟩ := kv0
    simp only [convert_to_uniprot_id] at h
    cases hc : convertProteins ps with
    | none => rw [hc] at h; simp at h
    | some ps' =>
      rw [hc] at h
      cases hr : convert_to_uniprot_id rest with
      | none => rw [hr] at h; simp at h
      | some rest' =>
        rw [hr] at h
        simp only [Option.some.injEq] at h
        rw [← h] at hkv
        rcases List.mem_cons.mp hkv with h1 | h1
        · exact ⟨ps, by rw [h1, hc]⟩
        · exact ih hr kv h1

theorem convert_in_values : ∀ {data out : List (String × List String)},
    convert_to_uniprot_id data = some out →
    ∀ kv, kv ∈ data → ∀ p, p ∈ kv.2 → ':' ∈ p.data := by
  intro data
  induction data with
  | nil => intro out h kv hkv; simp at hkv
  | cons kv0 rest ih =>
    intro out h kv hkv p hp
    obtain ⟨k, ps⟩ := kv0
    simp only [convert_to_uniprot_id] at h
    cases hc : convertProteins ps with
    | none => rw [hc] at h; simp at h
    | some ps' =>
      rw [hc] at h
      cases hr : convert_to_uniprot_id rest with
      | none => rw [hr] at h; simp at h
      | some rest' =>
        rcases List.mem_cons.mp hkv with h1 | h1
        · exact convertProteins_has_colon hc p (by rw [h1] at hp; exact hp)
        · exact ih hr kv h1 p hp

theorem dedupProteins_toFinset (l : List String) :
    (dedupProteins l).toFinset = l.toFinset := by
  apply Finset.ext
  intro a
  simp [dedupProteins, List.mem_toFinset, List.mem_dedup]

/-! ## Claim theorems -/

/-- Claim C1, amended: every key of the mapping returned by each of the three
fan-out operations is a protein id extracted from a row actually returned by
the endpoint; consequently an input protein id for which the endpoint
returned zero rows is absent from the output mapping rather than present
with an empty list. -/
theorem fanout_keys_only_from_returned_rows :
    (∀ (pe : List String → SparqlJson PathRow) (data : List (String × List String))
       (m : List (String × List String)) (k : String),
      get_pathways_of_proteins pe data = some m → k ∈ dictKeys m →
      k ∈ returnedProts (fun r => pySlashExtract r.prot) pe data) ∧
    (∀ (ge : List String → SparqlJson GeneRow) (data : List (String × List String))
       (m : List (String × List GeneRec)) (k : String),
      get_genes_of_proteins ge data = some m → k ∈ dictKeys m →
      k ∈ returnedProts (fun r => pySlashExtract r.prot) ge data) ∧
    (∀ (oe : List String → SparqlJson OrgRow) (data : List (String × List String))
       (m : List (String × List String)) (k : String),
      get_organism_of_proteins oe data = some m → k ∈ dictKeys m →
      k ∈ returnedProts (fun r => pySlashExtract r.prot) oe data) := by
  refine ⟨?_, ?_, ?_⟩
  · intro pe data m k h hk
    rcases runFanout_keys pathStep_keys data pe [] m h k hk with h1 | h1
    · simp [dictKeys] at h1
    · exact h1
  · intro ge data m k h hk
    rcases runFanout_keys geneStep_keys data ge [] m h k hk with h1 | h1
    · simp [dictKeys] at h1
    · exact h1
  · intro oe data m k h hk
    rcases runFanout_keys orgStep_keys data oe [] m h k hk with h1 | h1
    · simp [dictKeys] at h1
    · exact h1

/-- Witness for the amended claim C1 at a concrete endpoint and input. -/
theorem fanout_keys_only_from_returned_rows_witness :
    get_pathways_of_proteins (fun _ => SparqlJson.results [(⟨"http://u/P", "a"⟩ : PathRow)])
      [("r1", ["P"])] = some [("P", ["a"])] ∧
    ("P" ∈ dictKeys [("P", (["a"] : List String))]) ∧
    "P" ∈ returnedProts (fun r : PathRow => pySlashExtract r.prot)
      (fun _ => SparqlJson.results [(⟨"http://u/P", "a"⟩ : PathRow)]) [("r1", ["P"])] :=
  ⟨by decide, by decide,
    fanout_keys_only_from_returned_rows.1
      (fun _ => SparqlJson.results [(⟨"http://u/P", "a"⟩ : PathRow)])
      [("r1", ["P"])] [("P", ["a"])] "P" (by decide) (by decide)⟩

/-- Claim C1, counterexample to the claim as stated: with one input protein
and an endpoint returning zero rows, the pathway fan-out returns the empty
mapping — the input protein id "P1" is not present bound to an empty list. -/
theorem fanout_drops_zero_match_protein :
    get_pathways_of_proteins (fun _ => SparqlJson.results []) [("r1", ["P1"])] =
      some [] ∧
    "P1" ∉ dictKeys ([] : List (String × List String)) := by
  exact ⟨rfl, by simp [dictKeys]⟩

/-- Claim C2, evaluation at the failing input: the merge condition
`if prot_id in pathways and path not in pathways[prot_id]` sends a duplicate
row to the `else` branch, which re-assigns `pathways[prot_id] = [path]` and
loses the earlier entries.  Rows a, b, a for one protein leave ["a"], not the
order-preserving de-duplication ["a", "b"].  Same for organisms. -/
theorem duplicate_row_resets_protein_list :
    get_pathways_of_proteins
      (fun _ => SparqlJson.results
        [⟨"http://u/P", "a"⟩, ⟨"http://u/P", "b"⟩, ⟨"http://u/P", "a"⟩])
      [("r1", ["P"])] = some [("P", ["a"])] ∧
    get_organism_of_proteins
      (fun _ => SparqlJson.results
        [⟨"http://u/P", "a"⟩, ⟨"http://u/P", "b"⟩, ⟨"http://u/P", "a"⟩])
      [("r1", ["P"])] = some [("P", ["a"])] := by
  exact ⟨by decide, by decide⟩

/-- Claim C3, evaluation at the failing input: on an unparseable body the
client returns the empty object, but each fan-out then indexes
`data_js['results']` on it and raises `KeyError` (modelled `none`) instead of
producing zero rows. -/
theorem parse_failure_empty_then_fanout_raises :
    sparql_query (none : Option (SparqlJson GeneRow)) = SparqlJson.empty ∧
    get_genes_of_proteins (fun _ => sparql_query none) [("r1", ["Q38933"])] = none ∧
    get_pathways_of_proteins (fun _ => sparql_query none) [("r1", ["Q38933"])] = none ∧
    get_organism_of_proteins (fun _ => sparql_query none) [("r1", ["Q38933"])] = none := by
  exact ⟨rfl, rfl, rfl, rfl⟩

/-- Claim C4, counterexample to the claim as stated: re-applying
`convert_to_uniprot_id` to its own output does not return the output
unchanged — the output strings contain no colon, so `rsplit(':', 1)[1]`
raises `IndexError` (modelled `none`). -/
theorem convert_reapplication_not_stable :
    convert_to_uniprot_id [("r1", ["urn:test:Q38933"])] = some [("r1", ["Q38933"])] ∧
    convert_to_uniprot_id [("r1", ["Q38933"])] ≠ some [("r1", ["Q38933"])] := by
  exact ⟨by decide, by decide⟩

/-- Claim C4, amended: `convert_to_uniprot_id` maps the example input to
`{"r1": ["Q38933"]}` (and the unit-test input likewise), but because the
output strings contain no further colon, re-application raises rather than
returning the output unchanged. -/
theorem convert_example_and_reapplication_raises :
    convert_to_uniprot_id [("r1", ["urn:test:Q38933"])] = some [("r1", ["Q38933"])] ∧
    convert_to_uniprot_id [("key", ["http://url/to/test:1234"])] = some [("key", ["1234"])] ∧
    convert_to_uniprot_id [("r1", ["Q38933"])] = none := by
  exact ⟨by decide, by decide, by decide⟩

/-- Claim C5, counterexample to the claim as stated: when the resolver result
is the absent value `None` (unparseable compound response, lines 319–321),
`generate_csv` feeds it to `convert_to_uniprot_id`, which raises `TypeError`
(modelled `none`) — no header-only output is produced. -/
theorem generate_csv_absent_resolver_raises :
    generate_csv "17579" SparqlJson.empty (fun _ => SparqlJson.results [])
      (fun _ => SparqlJson.results []) (fun _ => SparqlJson.results []) = none ∧
    (none : Option String) ≠ some csv_header := by
  exact ⟨rfl, by simp⟩

/-- Claim C5, amended: when the resolver result is the empty mapping (the
endpoint answered with zero bindings), the CSV export yields exactly the
fixed column-header line with no data rows, without raising, for every
compound id and endpoint behaviour. -/
theorem generate_csv_empty_resolver_header_only :
    ∀ (cid : String) (pe : List String → SparqlJson PathRow)
      (ge : List String → SparqlJson GeneRow) (oe : List String → SparqlJson OrgRow),
      generate_csv cid (SparqlJson.results []) pe ge oe = some csv_header := by
  intro cid pe ge oe
  rfl

/-- Claim C6: for a compound with zero reaction matches — whether the client
result is the empty object (resolver returns Python `None`) or a well-formed
response with zero bindings (resolver returns the empty dict) — the resolver
returns without error and `show_chebi` produces the explicit no-results
report: an empty protein list and absent (`None`) pathway, gene and organism
mappings, never raising. -/
theorem show_chebi_zero_matches_no_results_report :
    ∀ (pe : List String → SparqlJson PathRow) (ge : List String → SparqlJson GeneRow)
      (oe : List String → SparqlJson OrgRow),
      get_protein_of_chebi SparqlJson.empty = some none ∧
      get_protein_of_chebi (SparqlJson.results ([] : List ChebiRow)) = some (some []) ∧
      show_chebi SparqlJson.empty pe ge oe = some noResultsReport ∧
      show_chebi (SparqlJson.results []) pe ge oe = some noResultsReport ∧
      noResultsReport = ⟨[], none, none, none⟩ := by
  intro pe ge oe
  exact ⟨rfl, rfl, rfl, rfl, rfl⟩

/-- Claim C7: both search variants merge result rows keyed by the extracted
ChEBI id — the output has one entry per id (no duplicate keys), and each
entry's `syn` list is exactly that id's synonym values accumulated in row
order (a re-seen id appends to the existing entry, never overwrites it). -/
theorem search_merge_keyed_by_id :
    ∀ (rows : List SearchRow) (m : List (String × MolEntry)),
      (get_exact_chebi_from_search (SparqlJson.results rows) = some (some m) ∨
       get_extended_chebi_from_search (SparqlJson.results rows) = some (some m)) →
      (dictKeys m).Nodup ∧ ∀ kv, kv ∈ m → kv.2.syn = synsFor kv.1 rows := by
  intro rows m h
  have h' : (stepRows moleculeStep [] rows).map some = some (some m) := by
    rcases h with h | h
    · exact h
    · exact h
  have hfold : stepRows moleculeStep [] rows = some m := by
    cases hs : stepRows moleculeStep [] rows with
    | none => rw [hs] at h'; simp at h'
    | some m' =>
      rw [hs] at h'
      simp only [Option.map_some', Option.some.injEq] at h'
      rw [h']
  have inv := stepRows_molInv rows [] m [] molInv_nil hfold
  rw [List.nil_append] at inv
  obtain ⟨hnd, hsome, _⟩ := inv
  refine ⟨hnd, ?_⟩
  intro kv hkv
  exact hsome kv.1 kv.2 (dictGet_of_mem_nodup hnd hkv)

/-- Witness for claim C7 at two rows sharing the id URI. -/
theorem search_merge_keyed_by_id_witness :
    (get_exact_chebi_from_search (SparqlJson.results
      [⟨"http://x/chebi_1", "n1", "s1"⟩, ⟨"http://x/chebi_1", "n1", "s2"⟩]) =
        some (some [("1", ⟨["n1"], ["s1", "s2"]⟩)]) ∨
     get_extended_chebi_from_search (SparqlJson.results
      [⟨"http://x/chebi_1", "n1", "s1"⟩, ⟨"http://x/chebi_1", "n1", "s2"⟩]) =
        some (some [("1", ⟨["n1"], ["s1", "s2"]⟩)])) ∧
    (dictKeys [("1", (⟨["n1"], ["s1", "s2"]⟩ : MolEntry))]).Nodup ∧
    ∀ kv, kv ∈ [("1", (⟨["n1"], ["s1", "s2"]⟩ : MolEntry))] →
      kv.2.syn = synsFor kv.1
        [⟨"http://x/chebi_1", "n1", "s1"⟩, ⟨"http://x/chebi_1", "n1", "s2"⟩] :=
  ⟨Or.inl (by decide),
   search_merge_keyed_by_id
     [⟨"http://x/chebi_1", "n1", "s1"⟩, ⟨"http://x/chebi_1", "n1", "s2"⟩]
     [("1", ⟨["n1"], ["s1", "s2"]⟩)] (Or.inl (by decide))⟩

/-- Claim C8, counterexample to the claim as stated: `split('_')[1]` is the
field between the first and second underscore of the final path segment, not
the whole portion after the first underscore — they differ on a segment with
two underscores. -/
theorem chebi_id_extraction_counterexample :
    chebiShortId "http://x/y/chebi_17_579" = some "17" ∧
    specShortId "http://x/y/chebi_17_579" = some "17_579" ∧
    chebiShortId "http://x/y/chebi_17_579" ≠ specShortId "http://x/y/chebi_17_579" := by
  exact ⟨by decide, by decide, by decide⟩

/-- Claim C8, amended: both search variants extract the short id as the
second underscore-separated field of the URI's final path segment; when the
segment contains exactly one underscore this coincides with the portion after
the first underscore, and in particular `chebi_17579` yields `17579`. -/
theorem chebi_id_extraction_second_field :
    ∀ (uri : String) (a b : List Char),
      afterLastSep '/' uri.data = some (a ++ '_' :: b) → '_' ∉ a → '_' ∉ b →
      chebiShortId uri = some (String.mk b) ∧ chebiShortId uri = specShortId uri := by
  intro uri a b h ha hb
  have h1 : chebiShortId uri = ((splitChars '_' (a ++ '_' :: b)).get? 1).map String.mk := by
    unfold chebiShortId
    rw [h]
    rfl
  have h2 : specShortId uri = (afterFirstSep '_' (a ++ '_' :: b)).map String.mk := by
    unfold specShortId
    rw [h]
    rfl
  rw [splitChars_append_sep b ha, splitChars_no_sep hb] at h1
  rw [afterFirstSep_append b ha] at h2
  constructor
  · rw [h1]
    rfl
  · rw [h1, h2]
    rfl

/-- Witness for the amended claim C8 at the spec's example URI. -/
theorem chebi_id_extraction_second_field_witness :
    afterLastSep '/' ("http://x/y/chebi_17579").data =
      some (['c', 'h', 'e', 'b', 'i'] ++ '_' :: ['1', '7', '5', '7', '9']) ∧
    ('_' ∉ (['c', 'h', 'e', 'b', 'i'] : List Char)) ∧
    ('_' ∉ (['1', '7', '5', '7', '9'] : List Char)) ∧
    chebiShortId "http://x/y/chebi_17579" = some (String.mk ['1', '7', '5', '7', '9']) ∧
    chebiShortId "http://x/y/chebi_17579" = specShortId "http://x/y/chebi_17579" :=
  ⟨by decide, by decide, by decide,
   (chebi_id_extraction_second_field "http://x/y/chebi_17579"
     ['c', 'h', 'e', 'b', 'i'] ['1', '7', '5', '7', '9']
     (by decide) (by decide) (by decide)).1,
   (chebi_id_extraction_second_field "http://x/y/chebi_17579"
     ['c', 'h', 'e', 'b', 'i'] ['1', '7', '5', '7', '9']
     (by decide) (by decide) (by decide)).2⟩

/-- Claim C9: every batch query of the fan-out operations embeds the
de-duplicated protein list of its reaction — `dedupProteins` (the
`list(set(...))` of the source, applied by `runFanout` before consulting the
endpoint) contains no repeated protein id and exactly the distinct ids of
the reaction's input list. -/
theorem fanout_batches_deduplicated :
    ∀ (data : List (String × List String)) (kv : String × List String), kv ∈ data →
      (dedupProteins kv.2).Nodup ∧ (dedupProteins kv.2).toFinset = kv.2.toFinset := by
  intro data kv _
  exact ⟨List.nodup_dedup _, dedupProteins_toFinset _⟩

/-- Witness for claim C9 at a concrete reaction with a repeated protein id. -/
theorem fanout_batches_deduplicated_witness :
    (("r1", ["P", "Q", "P"]) ∈ [("r1", (["P", "Q", "P"] : List String))]) ∧
    (dedupProteins ["P", "Q", "P"]).Nodup ∧
    (dedupProteins ["P", "Q", "P"]).toFinset = (["P", "Q", "P"] : List String).toFinset :=
  ⟨by decide,
   fanout_batches_deduplicated [("r1", ["P", "Q", "P"])] ("r1", ["P", "Q", "P"])
     (by decide)⟩

/-- Claim C10: on success, `convert_to_uniprot_id` returns the mapping with
the same reaction keys in the same order, every value string colon-free (a
short extracted id), and no raw protein-reference string of the input still
reachable among the output values (every successfully converted raw string
contains a colon, every output string does not). -/
theorem convert_replaces_raw_references :
    ∀ (data out : List (String × List String)), convert_to_uniprot_id data = some out →
      dictKeys out = dictKeys data ∧
      (∀ kv, kv ∈ out → ∀ s, s ∈ kv.2 → ':' ∉ s.data) ∧
      (∀ kv, kv ∈ data → ∀ raw, raw ∈ kv.2 → ∀ kv', kv' ∈ out → raw ∉ kv'.2) := by
  intro data out h
  have hout : ∀ kv, kv ∈ out → ∀ s, s ∈ kv.2 → ':' ∉ s.data := by
    intro kv hkv s hs
    obtain ⟨ps, hps⟩ := convert_out_entries h kv hkv
    exact convertProteins_no_colon hps s hs
  refine ⟨convert_keys h, hout, ?_⟩
  intro kv hkv raw hraw kv' hkv' hmem
  exact hout kv' hkv' raw hmem (convert_in_values h kv hkv raw hraw)

/-- Witness for claim C10 at the example input. -/
theorem convert_replaces_raw_references_witness :
    convert_to_uniprot_id [("r1", ["urn:test:Q38933"])] = some [("r1", ["Q38933"])] ∧
    (dictKeys [("r1", (["Q38933"] : List String))] =
      dictKeys [("r1", (["urn:test:Q38933"] : List String))] ∧
     (∀ kv, kv ∈ [("r1", (["Q38933"] : List String))] → ∀ s, s ∈ kv.2 → ':' ∉ s.data) ∧
     (∀ kv, kv ∈ [("r1", (["urn:test:Q38933"] : List String))] → ∀ raw, raw ∈ kv.2 →
        ∀ kv', kv' ∈ [("r1", (["Q38933"] : List String))] → raw ∉ kv'.2)) :=
  ⟨by decide,
   convert_replaces_raw_references [("r1", ["urn:test:Q38933"])] [("r1", ["Q38933"])]
     (by decide)⟩

end Chebi2Gene
